import Mathlib

/-!
Verification development for the Claude Code hook execution coordinator
(`coding/claude/scripts/hooks.py`).

The Python source is shallowly embedded below: pure helpers become Lean
functions, the filesystem (history file, advisory locks, log file) becomes
explicit state threaded through the functions, and exception paths become
explicit result values.  Machine-level inputs (wall-clock time) are modelled
as exact rationals.  Theorems about the embedding follow the definitions.
-/

/-! ## SHA-256 (the hash used by `hashlib.sha256` in `_generate_execution_id`) -/

/-- Truncation to a 32-bit word. -/
def w32 (n : Nat) : Nat := n % 4294967296

/-- 32-bit right rotation (the operand is assumed to be a 32-bit word). -/
def rotr32 (x n : Nat) : Nat := w32 ((x >>> n) ||| (x <<< (32 - n)))

/-- SHA-256 lower-case sigma-0. -/
def smallSigma0 (x : Nat) : Nat := rotr32 x 7 ^^^ rotr32 x 18 ^^^ (x >>> 3)

/-- SHA-256 lower-case sigma-1. -/
def smallSigma1 (x : Nat) : Nat := rotr32 x 17 ^^^ rotr32 x 19 ^^^ (x >>> 10)

/-- SHA-256 upper-case sigma-0. -/
def bigSigma0 (x : Nat) : Nat := rotr32 x 2 ^^^ rotr32 x 13 ^^^ rotr32 x 22

/-- SHA-256 upper-case sigma-1. -/
def bigSigma1 (x : Nat) : Nat := rotr32 x 6 ^^^ rotr32 x 11 ^^^ rotr32 x 25

/-- The 64 SHA-256 round constants. -/
def sha256K : List Nat := [
  1116352408, 1899447441, 3049323471, 3921009573, 961987163, 1508970993,
  2453635748, 2870763221, 3624381080, 310598401, 607225278, 1426881987,
  1925078388, 2162078206, 2614888103, 3248222580, 3835390401, 4022224774,
  264347078, 604807628, 770255983, 1249150122, 1555081692, 1996064986,
  2554220882, 2821834349, 2952996808, 3210313671, 3336571891, 3584528711,
  113926993, 338241895, 666307205, 773529912, 1294757372, 1396182291,
  1695183700, 1986661051, 2177026350, 2456956037, 2730485921, 2820302411,
  3259730800, 3345764771, 3516065817, 3600352804, 4094571909, 275423344,
  430227734, 506948616, 659060556, 883997877, 958139571, 1322822218,
  1537002063, 1747873779, 1955562222, 2024104815, 2227730452, 2361852424,
  2428436474, 2756734187, 3204031479, 3329325298]

/-- The SHA-256 initial hash state. -/
def sha256H0 : List Nat := [
  1779033703, 3144134277, 1013904242, 2773480762,
  1359893119, 2600822924, 528734635, 1541459225]

/-- Groups a byte sequence into big-endian 32-bit words. -/
def bytesToWordsBE : List Nat → List Nat
  | b0 :: b1 :: b2 :: b3 :: rest =>
      (((b0 * 256 + b1) * 256 + b2) * 256 + b3) :: bytesToWordsBE rest
  | _ => []

/-- Big-endian byte rendering of `n` in `k` bytes. -/
def natToBytesBE (k n : Nat) : List Nat :=
  (List.range k).map fun i => (n >>> (8 * (k - 1 - i))) &&& 255

/-- Extends the 16 words of one block to the 64-word message schedule. -/
def sha256Schedule (w0 : List Nat) : List Nat :=
  ((List.range 48).foldl (fun a i =>
      let j := i + 16
      let x := w32 (a.getD (j - 16) 0 + smallSigma0 (a.getD (j - 15) 0) +
        a.getD (j - 7) 0 + smallSigma1 (a.getD (j - 2) 0))
      a.push x) w0.toArray).toList

/-- One SHA-256 round: the state is the word list `[a,b,c,d,e,f,g,h]`,
`kw` pairs the round constant with the schedule word. -/
def sha256Round (st : List Nat) (kw : Nat × Nat) : List Nat :=
  match st with
  | [a, b, c, d, e, f, g, h] =>
      let ch := (e &&& f) ^^^ ((e ^^^ 4294967295) &&& g)
      let t1 := w32 (h + bigSigma1 e + ch + kw.1 + kw.2)
      let maj := (a &&& b) ^^^ (a &&& c) ^^^ (b &&& c)
      let t2 := w32 (bigSigma0 a + maj)
      [w32 (t1 + t2), a, b, c, w32 (d + t1), e, f, g]
  | other => other

/-- Compresses one 64-byte block into the running hash state. -/
def sha256Compress (h : List Nat) (block : List Nat) : List Nat :=
  let w := sha256Schedule (bytesToWordsBE block)
  let st := (sha256K.zip w).foldl sha256Round h
  (h.zip st).map fun p => w32 (p.1 + p.2)

/-- SHA-256 padding: append `0x80`, zeros to 56 mod 64, then the 64-bit
big-endian bit length. -/
def sha256Pad (msg : List Nat) : List Nat :=
  let L := msg.length
  msg ++ [128] ++ List.replicate ((119 - L % 64) % 64) 0 ++ natToBytesBE 8 (8 * L)

/-- Splits a (padded) byte sequence into 64-byte blocks. -/
def chunks64 (l : List Nat) : List (List Nat) :=
  if h : l = [] then []
  else l.take 64 :: chunks64 (l.drop 64)
termination_by l.length
decreasing_by
  have hpos : 0 < l.length := List.length_pos.mpr h
  simp only [List.length_drop]
  omega

/-- The eight 32-bit words of the SHA-256 digest of a byte sequence. -/
def sha256Words (msg : List Nat) : List Nat :=
  (chunks64 (sha256Pad msg)).foldl sha256Compress sha256H0

/-- Lower-case hexadecimal digit. -/
def hexDigit (n : Nat) : Char := if n < 10 then Char.ofNat (48 + n) else Char.ofNat (87 + n)

/-- Eight-hex-digit rendering of a 32-bit word. -/
def wordToHex8 (n : Nat) : List Char :=
  (List.range 8).map fun i => hexDigit ((n >>> (4 * (7 - i))) &&& 15)

/-- UTF-8 bytes of a string, as natural numbers (Python `str.encode()`). -/
def strBytes (s : String) : List Nat := s.toUTF8.toList.map UInt8.toNat

/-- `hashlib.sha256(s.encode()).hexdigest()`. -/
def sha256hex (s : String) : String :=
  String.mk (((sha256Words (strBytes s)).map wordToHex8).flatten)

/-! ## Event envelope and execution identity (`ExecutionContext`) -/

/-- The typed view of the JSON input envelope: the fields `hooks.py` reads.
`none` models an absent key. -/
structure JsonData where
  session_id : Option String := none
  hook_event_name : Option String := none
  tool_name : Option String := none
  tool_input_file_path : Option String := none
  message : Option String := none
  stop_hook_active : Option Bool := none
  error_message : Option String := none
deriving DecidableEq

/-- The string hashed by `ExecutionContext._generate_execution_id`:
`f"{session_id}:{hook_event_name}" + f":{tool_name}"`. -/
def executionContent (session_id hook_event_name tool_name : String) : String :=
  session_id ++ ":" ++ hook_event_name ++ ":" ++ tool_name

/-- `ExecutionContext._generate_execution_id`: the first 16 hex digits of the
SHA-256 of the joined session/event/tool string. -/
def ExecutionContext.generate_execution_id
    (session_id hook_event_name tool_name : String) : String :=
  (sha256hex (executionContent session_id hook_event_name tool_name)).take 16

/-- `ExecutionContext`: the fields set by `__init__`. -/
structure ExecutionContext where
  session_id : String
  hook_event_name : String
  tool_name : String
  timestamp : ℚ
  process_id : Nat
  execution_id : String
deriving DecidableEq

/-- `ExecutionContext.__init__`: fields default to the empty string when the
key is absent; `timestamp` is `time.time()` and `process_id` is `os.getpid()`
at construction time; the execution id is generated from the three string
fields. -/
def ExecutionContext.ofJson (j : JsonData) (now : ℚ) (pid : Nat) : ExecutionContext :=
  { session_id := j.session_id.getD ""
    hook_event_name := j.hook_event_name.getD ""
    tool_name := j.tool_name.getD ""
    timestamp := now
    process_id := pid
    execution_id := ExecutionContext.generate_execution_id
      (j.session_id.getD "") (j.hook_event_name.getD "") (j.tool_name.getD "") }

/-! ## Duplicate suppressor (`ExecutionGuard._is_duplicate_execution`) -/

/-- Numeric value of a list of decimal digit characters. -/
def digitsToNat (l : List Char) : Nat :=
  l.foldl (fun a c => a * 10 + (c.toNat - 48)) 0

/-- Python `str.strip()` with no argument: removes leading and trailing
whitespace. -/
def pyStrip (s : String) : String :=
  String.mk (((s.data.dropWhile Char.isWhitespace).reverse.dropWhile Char.isWhitespace).reverse)

/-- The decomposed text of a float literal: sign, integer digits, fraction
digits, and an optional exponent (its own sign and digits). -/
structure FloatParts where
  neg : Bool
  intDigits : List Char
  fracDigits : List Char
  expo : Option (Bool × List Char)
deriving DecidableEq

/-- Structural stage of the subset of Python `float()` parsing exercised by
history timestamps: optional surrounding whitespace and sign, finite decimal
notation with an optional fraction and an optional decimal exponent.  (The
special spellings `inf`/`nan` and digit-group underscores are not modelled;
the program only ever writes `str(time.time())` values, which are plain
decimals.)  Returns `none` exactly where `float()` raises `ValueError` on
this subset. -/
def parseFloatParts (s : String) : Option FloatParts :=
  let t := (pyStrip s).data
  let sgnRest : Bool × List Char :=
    match t with
    | '+' :: r => (false, r)
    | '-' :: r => (true, r)
    | r => (false, r)
  let r0 := sgnRest.2
  let ip := r0.takeWhile Char.isDigit
  let r1 := r0.dropWhile Char.isDigit
  let fpRest : List Char × List Char :=
    match r1 with
    | '.' :: r => (r.takeWhile Char.isDigit, r.dropWhile Char.isDigit)
    | r => ([], r)
  if ip = [] ∧ fpRest.1 = [] then none
  else
    match fpRest.2 with
    | [] => some ⟨sgnRest.1, ip, fpRest.1, none⟩
    | 'e' :: r => parseExpoParts sgnRest.1 ip fpRest.1 r
    | 'E' :: r => parseExpoParts sgnRest.1 ip fpRest.1 r
    | _ => none
where
  /-- Parses the exponent text after `e`/`E`. -/
  parseExpoParts (neg : Bool) (ip fp : List Char) (l : List Char) : Option FloatParts :=
    let esRest : Bool × List Char :=
      match l with
      | '+' :: r => (false, r)
      | '-' :: r => (true, r)
      | r => (false, r)
    if esRest.2 = [] ∨ ¬ esRest.2.all Char.isDigit then none
    else some ⟨neg, ip, fp, some esRest⟩

/-- Numeric stage: the exact rational value of decomposed float text. -/
def FloatParts.toRat (p : FloatParts) : ℚ :=
  let sign : ℚ := if p.neg then -1 else 1
  let mant : ℚ := (digitsToNat p.intDigits : ℚ) +
    (digitsToNat p.fracDigits : ℚ) / (10 : ℚ) ^ p.fracDigits.length
  match p.expo with
  | none => sign * mant
  | some e => sign * mant * (10 : ℚ) ^ ((if e.1 then -1 else 1) * (digitsToNat e.2 : ℤ))

/-- Python `float()` on the modelled subset. -/
def parseFloat (s : String) : Option ℚ :=
  (parseFloatParts s).map FloatParts.toRat

/-- Splits a character list at its first colon, if any
(`str.split(":", 1)` succeeding means a colon is present). -/
def splitCharsFirstColon : List Char → Option (List Char × List Char)
  | [] => none
  | c :: rest =>
      if c = ':' then some ([], rest)
      else match splitCharsFirstColon rest with
        | some p => some (c :: p.1, p.2)
        | none => none

/-- `str.split(":", 1)` on a string, as an optional pair. -/
def splitFirstColon (s : String) : Option (String × String) :=
  (splitCharsFirstColon s.data).map fun p => (String.mk p.1, String.mk p.2)

/-- One iteration of the history-scan loop: a blank line yields nothing; a
line without a colon makes the two-way unpacking raise `ValueError`
(suppressed); a timestamp that `float()` rejects raises `ValueError`
(suppressed); otherwise the record `(exec_id, timestamp)` is produced. -/
def parseHistoryLine (line : String) : Option (String × ℚ) :=
  let s := pyStrip line
  if s = "" then none
  else match splitFirstColon s with
    | none => none
    | some p => (parseFloat p.2).map fun ts => (p.1, ts)

/-- The parseable records of a history file body, in order. -/
def historyRecords (lines : List String) : List (String × ℚ) :=
  lines.filterMap parseHistoryLine

/-- The body of the `for line in f` loop of `_is_duplicate_execution`:
returns `true` at the first record whose id matches and whose timestamp is
within 5 seconds of `now`. -/
def scanHistory (fp : String) (now : ℚ) : List String → Bool
  | [] => false
  | line :: rest =>
      match parseHistoryLine line with
      | some r => if r.1 = fp ∧ now - r.2 < 5 then true else scanHistory fp now rest
      | none => scanHistory fp now rest

/-- The observable state of the shared history file
`/Users/xin/.claude/log/execution_history.log`. -/
inductive HistoryStore where
  /-- `history_file.exists()` is false. -/
  | absent
  /-- Opening or reading the file raises `OSError`. -/
  | unreadable
  /-- The file is readable and holds these lines. -/
  | content (lines : List String)
deriving DecidableEq

/-- `ExecutionGuard._is_duplicate_execution`: an absent file skips the scan,
an `OSError` is caught and answered with `False`, otherwise the lines are
scanned. -/
def ExecutionGuard.is_duplicate_execution (store : HistoryStore) (fp : String) (now : ℚ) : Bool :=
  match store with
  | .absent => false
  | .unreadable => false
  | .content lines => scanHistory fp now lines

/-! ## Exclusive execution guard (`ExecutionGuard.__enter__`) -/

/-- The advisory-lock table of the operating system: which lock-file path is
currently flocked, and by which process id. -/
abbrev LockTable := List (String × Nat)

/-- `fcntl.flock(fd, LOCK_EX | LOCK_NB)` on the file at `path`: atomically
grants the lock when no process holds it, and raises `BlockingIOError`
(reported here as `false`) when some process does. -/
def flockTryExclusive (tbl : LockTable) (path : String) (pid : Nat) : Bool × LockTable :=
  match tbl.lookup path with
  | some _ => (false, tbl)
  | none => (true, (path, pid) :: tbl)

/-- The lock-file path derived from the fingerprint in
`ExecutionGuard.__init__`: `.claude/log/execution_<id>.lock`. -/
def ExecutionGuard.lock_file_path (ctx : ExecutionContext) : String :=
  ".claude/log/execution_" ++ ctx.execution_id ++ ".lock"

/-- `ExecutionGuard.__enter__`: answer `false` on a detected duplicate;
otherwise create the directory, open the lock file and take the non-blocking
exclusive lock, any `OSError`/`BlockingIOError` on the way (directory
creation, open, lock, write, flush — collected in `fsError`) also answering
`false`.  Returns the grant decision and the resulting lock table. -/
def ExecutionGuard.enter (store : HistoryStore) (fsError : Bool) (tbl : LockTable)
    (ctx : ExecutionContext) : Bool × LockTable :=
  if ExecutionGuard.is_duplicate_execution store ctx.execution_id ctx.timestamp then (false, tbl)
  else if fsError then (false, tbl)
  else flockTryExclusive tbl (ExecutionGuard.lock_file_path ctx) ctx.process_id

/-! ## Handler registry and dispatcher -/

/-- The handler instances `_setup_default_handlers` creates: one
`BashToolHandler`, one `FileOperationHandler` shared by all file tools, and
the `NoOpHandler` fallback built inside `get_handler`. -/
inductive HandlerRef where
  | bashHandler
  | fileHandler
  | noOpHandler
deriving DecidableEq

/-- The three capabilities of `BaseToolHandler`. -/
inductive Capability where
  | before
  | after
  | error
deriving DecidableEq

/-- Observable side effects of handlers and of the non-tool event branches
(each constructor is one `print` and/or subprocess invocation). -/
inductive OutputEvent where
  /-- `BashToolHandler.handle_before` prints its TODO line. -/
  | bashBeforeTodo
  /-- `BashToolHandler.handle_after` prints its TODO line. -/
  | bashAfterTodo
  /-- `BashToolHandler.handle_error` prints its TODO line with the message. -/
  | bashErrorTodo (msg : Option String)
  /-- `FileOperationHandler.handle_before` prints its TODO line. -/
  | fileBeforeTodo
  /-- `FileOperationHandler.handle_error` prints its TODO line with the message. -/
  | fileErrorTodo (msg : Option String)
  /-- `_run_ruff_lint` runs `uv run ruff check --fix` on the path. -/
  | ruffLint (path : String)
  /-- `_run_ruff_format` runs `uv run ruff format` on the path. -/
  | ruffFormat (path : String)
  /-- The `Notification` branch prints the message (or its default). -/
  | notificationMsg (msg : String)
  /-- The `Stop` branch prints the `stop_hook_active` flag. -/
  | stopMsg (active : Bool)
  /-- The `SubagentStop` branch prints its line. -/
  | subagentStopMsg
deriving DecidableEq

/-- `FileOperationHandler._is_python_file`. -/
def FileOperationHandler.is_python_file (p : String) : Bool :=
  p.endsWith ".py" || p.endsWith ".pyi"

/-- `FileOperationHandler.handle_after`: only `Write`/`Edit`/`MultiEdit` with
a truthy, Python-suffixed `tool_input.file_path` trigger ruff lint then
format. -/
def FileOperationHandler.handle_after (j : JsonData) : List OutputEvent :=
  match j.tool_name with
  | some t =>
      if t = "Write" ∨ t = "Edit" ∨ t = "MultiEdit" then
        match j.tool_input_file_path with
        | some fp =>
            if fp ≠ "" ∧ FileOperationHandler.is_python_file fp = true then
              [.ruffLint fp, .ruffFormat fp]
            else []
        | none => []
      else []
  | none => []

/-- Runs one capability of one handler instance on the envelope, returning
its observable actions.  `NoOpHandler` does nothing for every capability. -/
def runHandler (h : HandlerRef) (c : Capability) (j : JsonData) : List OutputEvent :=
  match h, c with
  | .bashHandler, .before => [.bashBeforeTodo]
  | .bashHandler, .after => [.bashAfterTodo]
  | .bashHandler, .error => [.bashErrorTodo j.error_message]
  | .fileHandler, .before => [.fileBeforeTodo]
  | .fileHandler, .after => FileOperationHandler.handle_after j
  | .fileHandler, .error => [.fileErrorTodo j.error_message]
  | .noOpHandler, _ => []

/-- The bindings installed by `ToolHandlerRegistry._setup_default_handlers`. -/
def ToolHandlerRegistry.default_handlers : List (String × HandlerRef) :=
  [("Bash", .bashHandler), ("Read", .fileHandler), ("Edit", .fileHandler),
   ("MultiEdit", .fileHandler), ("Write", .fileHandler),
   ("NotebookRead", .fileHandler), ("NotebookEdit", .fileHandler)]

/-- `ToolHandlerRegistry.get_handler`: exact-name lookup with the `NoOpHandler`
fallback. -/
def ToolHandlerRegistry.get_handler (handlers : List (String × HandlerRef))
    (tool_name : String) : HandlerRef :=
  (handlers.lookup tool_name).getD .noOpHandler

/-- Python truthiness of an optional string (`None` and `""` are falsy). -/
def truthy : Option String → Bool
  | none => false
  | some s => s ≠ ""

/-- What one dispatch did: the registry lookups performed, the handler
capability invocations, and the observable actions. -/
structure DispatchResult where
  registryLookups : List String
  invocations : List (HandlerRef × Capability)
  outputs : List OutputEvent
deriving DecidableEq

/-- `HookCoordinator._handle_non_tool_event`. -/
def HookCoordinator.handle_non_tool_event (event_name : String) (j : JsonData) :
    List OutputEvent :=
  if event_name = "Notification" then [.notificationMsg (j.message.getD "メッセージなし")]
  else if event_name = "Stop" then [.stopMsg (j.stop_hook_active.getD false)]
  else if event_name = "SubagentStop" then [.subagentStopMsg]
  else []

/-- `HookCoordinator._handle_hook_event`: tool-scoped events with a truthy
tool name look the handler up and invoke the matching capability; the three
non-tool events branch directly; anything else falls through. -/
def HookCoordinator.handle_hook_event (j : JsonData) : DispatchResult :=
  if j.hook_event_name = some "PreToolUse" ∧ truthy j.tool_name = true then
    let t := j.tool_name.getD ""
    let h := ToolHandlerRegistry.get_handler ToolHandlerRegistry.default_handlers t
    ⟨[t], [(h, .before)], runHandler h .before j⟩
  else if j.hook_event_name = some "PostToolUse" ∧ truthy j.tool_name = true then
    let t := j.tool_name.getD ""
    let h := ToolHandlerRegistry.get_handler ToolHandlerRegistry.default_handlers t
    ⟨[t], [(h, .after)], runHandler h .after j⟩
  else if j.hook_event_name = some "Notification" ∨ j.hook_event_name = some "Stop" ∨
      j.hook_event_name = some "SubagentStop" then
    ⟨[], [], HookCoordinator.handle_non_tool_event (j.hook_event_name.getD "") j⟩
  else ⟨[], [], []⟩

/-! ## Coordinator flow (`HookCoordinator.process`) -/

/-- Everything one run of `HookCoordinator.process` does after reading the
envelope: the history records appended, how many log entries were appended,
the dispatch activity, and the process exit code. -/
structure RunResult where
  historyAppends : List (String × ℚ)
  logAppends : Nat
  dispatch : DispatchResult
  exitCode : Nat
deriving DecidableEq

/-- The body of the `with ExecutionGuard(context) as is_allowed` block: a
denied guard returns at once (the process then exits normally with code 0);
a granted guard records `(execution_id, timestamp)` to the history, appends
one log entry, and dispatches the event. -/
def runAfterGuard (granted : Bool) (j : JsonData) (ctx : ExecutionContext) : RunResult :=
  if granted then
    { historyAppends := [(ctx.execution_id, ctx.timestamp)]
      logAppends := 1
      dispatch := HookCoordinator.handle_hook_event j
      exitCode := 0 }
  else
    { historyAppends := []
      logAppends := 0
      dispatch := ⟨[], [], []⟩
      exitCode := 0 }

/-- `HookCoordinator.process` on an already-decoded envelope: build the
execution context, run the guard against the shared history/lock state, and
continue only when allowed. -/
def HookCoordinator.process (store : HistoryStore) (fsError : Bool) (tbl : LockTable)
    (j : JsonData) (now : ℚ) (pid : Nat) : RunResult :=
  let ctx := ExecutionContext.ofJson j now pid
  runAfterGuard (ExecutionGuard.enter store fsError tbl ctx).1 j ctx

/-! ## Append-only event logger (`HookLogger.log_with_timestamp`) -/

/-- A JSON value, as decoded by `json.loads`. -/
inductive JsonValue where
  | null
  | bool (b : Bool)
  | num (q : ℚ)
  | str (s : String)
  | arr (elems : List JsonValue)
  | obj (fields : List (String × JsonValue))

/-- A decoded JSON object: an insertion-ordered dictionary. -/
abbrev JsonObj := List (String × JsonValue)

/-- Python `dict` assignment `d[k] = v`: replaces the value at an existing
key in place, otherwise appends the binding. -/
def dictInsert : JsonObj → String → JsonValue → JsonObj
  | [], k, v => [(k, v)]
  | p :: rest, k, v => if p.1 = k then (k, v) :: rest else p :: dictInsert rest k v

/-- The Python dict display `{**a, **b}`: start from `a`, then assign each
binding of `b` in order (later keys win). -/
def dictMerge (a b : JsonObj) : JsonObj :=
  b.foldl (fun acc p => dictInsert acc p.1 p.2) a

/-- The record built by `HookLogger.log_with_timestamp`:
`{"timestamp": <rendered Asia/Tokyo time>, **json_data}`. -/
def HookLogger.log_entry (renderedTs : String) (json_data : JsonObj) : JsonObj :=
  dictMerge [("timestamp", JsonValue.str renderedTs)] json_data

/-- `HookLogger.log_with_timestamp` as a transition on the shared log file:
under the log lock the entry is rendered on one line and appended; existing
entries are untouched.  `renderedTs` is `datetime.now(ZoneInfo("Asia/Tokyo"))`
formatted at the moment of the write. -/
def HookLogger.log_with_timestamp (renderedTs : String) (json_data : JsonObj)
    (log : List JsonObj) : List JsonObj :=
  log ++ [HookLogger.log_entry renderedTs json_data]

/-! ## Top-level error handling (`ErrorHandler`, `main`) -/

/-- The stderr line printed by `ErrorHandler.handle_fatal_error`. -/
def fatalLine (context msg : String) : String :=
  "FATAL ERROR [" ++ context ++ "]: " ++ msg

/-- The exceptions distinguished by `main`. -/
inductive PyExc where
  /-- `KeyboardInterrupt` (operator interrupt). -/
  | keyboardInterrupt
  /-- `SystemExit` carrying an exit code (raised by `sys.exit`). -/
  | systemExit (code : Nat)
  /-- Any other exception, carrying its rendered message. -/
  | otherExc (msg : String)
deriving DecidableEq

/-- How one invocation of `coordinator.process()` ended, as seen by `main`:
either a normal return, or an exception together with the stderr lines
already printed before it was raised. -/
inductive ProcOutcome where
  | normal
  | raised (e : PyExc) (stderrLines : List String)
deriving DecidableEq

/-- The final fate of the operating-system process. -/
inductive MainResult where
  /-- The process terminated with these stderr lines and this exit code. -/
  | exited (stderrLines : List String) (code : Nat)
  /-- A `KeyboardInterrupt` escaped `main` (no exit-code-2 conversion). -/
  | interrupted (stderrLines : List String)
deriving DecidableEq

/-- `main`: `KeyboardInterrupt` and `SystemExit` are re-raised unchanged
(a re-raised `SystemExit` makes the interpreter exit with its stored code);
every other exception is reported by `ErrorHandler.handle_fatal_error` with
context `"main"` and exit code 2; a normal return exits with code 0. -/
def pymain : ProcOutcome → MainResult
  | .normal => .exited [] 0
  | .raised .keyboardInterrupt ss => .interrupted ss
  | .raised (.systemExit c) ss => .exited ss c
  | .raised (.otherExc msg) ss => .exited (ss ++ [fatalLine "main" msg]) 2

/-- `JsonInputReader.read_json_input`: a `json.JSONDecodeError` is reported
by `ErrorHandler.handle_fatal_error` with the reader's context tag, which
then raises `SystemExit(2)`; a well-formed object is returned unchanged. -/
def JsonInputReader.read_json_input (decoded : Except String JsonObj) :
    Except (PyExc × List String) JsonObj :=
  match decoded with
  | .ok d => .ok d
  | .error msg => .error (.systemExit 2, [fatalLine "JsonInputReader.read_json_input" msg])

/-! ## Helper lemmas -/

/-- The history scan answers the same as a search over the parseable records. -/
theorem scanHistory_eq_any (fp : String) (now : ℚ) (l : List String) :
    scanHistory fp now l =
      (historyRecords l).any fun r => decide (r.1 = fp ∧ now - r.2 < 5) := by
  induction l with
  | nil => rfl
  | cons line rest ih =>
    rw [scanHistory, historyRecords, List.filterMap_cons]
    cases hp : parseHistoryLine line with
    | none => simpa [historyRecords] using ih
    | some r =>
      rw [List.any_cons]
      by_cases hc : r.1 = fp ∧ now - r.2 < 5
      · simp [hc]
      · simp only [hc, if_false, decide_eq_true_eq]
        simpa [hc, historyRecords] using ih

/-- The concrete one-record history used by witnesses: the line
`"deadbeef:100.0"` parses to the record `("deadbeef", 100)`. -/
theorem historyRecords_deadbeef :
    historyRecords ["deadbeef:100.0"] = [("deadbeef", (100 : ℚ))] := by
  have hps : pyStrip "deadbeef:100.0" = "deadbeef:100.0" := by decide
  have hne : ("deadbeef:100.0" : String) ≠ "" := by decide
  have hsp : splitFirstColon "deadbeef:100.0" = some ("deadbeef", "100.0") := by decide
  have hpp : parseFloatParts "100.0" = some ⟨false, ['1','0','0'], ['0'], none⟩ := by decide
  have hd1 : digitsToNat ['1','0','0'] = 100 := by decide
  have hd2 : digitsToNat ['0'] = 0 := by decide
  have hv : FloatParts.toRat ⟨false, ['1','0','0'], ['0'], none⟩ = 100 := by
    simp [FloatParts.toRat, hd1, hd2]
  simp [historyRecords, parseHistoryLine, parseFloat, hps, hne, hsp, hpp, hv]

/-- Splitting a colon-marked concatenation of colon-free lists is injective. -/
theorem append_colon_inj {a b r s : List Char}
    (ha : ':' ∉ a) (hb : ':' ∉ b) (h : a ++ ':' :: r = b ++ ':' :: s) :
    a = b ∧ r = s := by
  induction a generalizing b with
  | nil =>
    cases b with
    | nil => simpa using h
    | cons d bs =>
      simp only [List.nil_append, List.cons_append, List.cons.injEq] at h
      exact absurd (h.1 ▸ List.mem_cons_self d bs) (h.1 ▸ hb)
  | cons c as ih =>
    cases b with
    | nil =>
      simp only [List.cons_append, List.nil_append, List.cons.injEq] at h
      exact absurd (h.1 ▸ List.mem_cons_self c as) (h.1 ▸ ha)
    | cons d bs =>
      simp only [List.cons_append, List.cons.injEq] at h
      have ha' : ':' ∉ as := fun hm => ha (List.mem_cons_of_mem c hm)
      have hb' : ':' ∉ bs := fun hm => hb (List.mem_cons_of_mem d hm)
      obtain ⟨h1, h2⟩ := ih ha' hb' h.2
      exact ⟨by rw [h.1, h1], h2⟩

/-! ## Claims -/

/-- C1: the execution identity is a pure, deterministic function of the
envelope's `session_id`, `hook_event_name` and `tool_name` only — two
contexts built from envelopes agreeing on those three fields carry the same
`execution_id`, whatever their wall-clock timestamps and process ids. -/
theorem execution_identity_time_independent :
    ∀ (j1 j2 : JsonData) (t1 t2 : ℚ) (p1 p2 : Nat),
      j1.session_id = j2.session_id → j1.hook_event_name = j2.hook_event_name →
      j1.tool_name = j2.tool_name →
      (ExecutionContext.ofJson j1 t1 p1).execution_id =
        (ExecutionContext.ofJson j2 t2 p2).execution_id := by
  intro j1 j2 t1 t2 p1 p2 h1 h2 h3
  simp only [ExecutionContext.ofJson, h1, h2, h3]

/-- Witness for C1 at a concrete envelope: timestamps 1 vs 2 and process ids
100 vs 999 do not change the fingerprint. -/
theorem execution_identity_time_independent_witness :
    (ExecutionContext.ofJson
        { session_id := some "s", hook_event_name := some "PreToolUse",
          tool_name := some "Bash" } 1 100).execution_id =
      (ExecutionContext.ofJson
        { session_id := some "s", hook_event_name := some "PreToolUse",
          tool_name := some "Bash" } 2 999).execution_id :=
  execution_identity_time_independent _ _ 1 2 100 999 rfl rfl rfl

/-- C2: the duplicate check on a readable history answers true exactly when
some parseable record carries the fingerprint with `now - timestamp < 5`
seconds; in particular, against a history holding exactly one record
`(fp, T)`, an identical-fingerprint event at `T + 4.9` is suppressed and one
at `T + 5.1` is not. -/
theorem duplicate_check_window :
    (∀ (lines : List String) (fp : String) (now : ℚ),
      ExecutionGuard.is_duplicate_execution (.content lines) fp now = true ↔
        ∃ r ∈ historyRecords lines, r.1 = fp ∧ now - r.2 < 5) ∧
    (∀ (lines : List String) (fp : String) (T : ℚ),
      historyRecords lines = [(fp, T)] →
        ExecutionGuard.is_duplicate_execution (.content lines) fp (T + 49/10) = true ∧
        ExecutionGuard.is_duplicate_execution (.content lines) fp (T + 51/10) = false) := by
  have hiff : ∀ (lines : List String) (fp : String) (now : ℚ),
      ExecutionGuard.is_duplicate_execution (.content lines) fp now = true ↔
        ∃ r ∈ historyRecords lines, r.1 = fp ∧ now - r.2 < 5 := by
    intro lines fp now
    rw [ExecutionGuard.is_duplicate_execution, scanHistory_eq_any, List.any_eq_true]
    simp only [decide_eq_true_eq]
  refine ⟨hiff, ?_⟩
  intro lines fp T h
  constructor
  · rw [hiff, h]
    refine ⟨(fp, T), List.mem_singleton.mpr rfl, rfl, by linarith⟩
  · rw [← Bool.not_eq_true, hiff, h]
    rintro ⟨r, hr, h1, h2⟩
    rw [List.mem_singleton] at hr
    subst hr
    simp only at h2
    linarith

/-- Witness for C2 at a concrete one-record history. -/
theorem duplicate_check_window_witness :
    ExecutionGuard.is_duplicate_execution (.content ["deadbeef:100.0"]) "deadbeef"
        ((100 : ℚ) + 49/10) = true ∧
      ExecutionGuard.is_duplicate_execution (.content ["deadbeef:100.0"]) "deadbeef"
        ((100 : ℚ) + 51/10) = false :=
  duplicate_check_window.2 ["deadbeef:100.0"] "deadbeef" 100 historyRecords_deadbeef

/-- C3: the duplicate check fails open — an absent history store and a
filesystem read error both answer `false` rather than raising, and a history
line that does not parse as `(exec_id, float timestamp)` is skipped without
affecting the answer computed from the remaining lines. -/
theorem duplicate_check_fails_open :
    (∀ (fp : String) (now : ℚ),
      ExecutionGuard.is_duplicate_execution .absent fp now = false) ∧
    (∀ (fp : String) (now : ℚ),
      ExecutionGuard.is_duplicate_execution .unreadable fp now = false) ∧
    (∀ (fp : String) (now : ℚ) (pre post : List String) (line : String),
      parseHistoryLine line = none →
        ExecutionGuard.is_duplicate_execution (.content (pre ++ line :: post)) fp now =
          ExecutionGuard.is_duplicate_execution (.content (pre ++ post)) fp now) := by
  refine ⟨fun _ _ => rfl, fun _ _ => rfl, ?_⟩
  intro fp now pre post line h
  simp [ExecutionGuard.is_duplicate_execution, scanHistory_eq_any, historyRecords, h]

/-- Witness for C3: a malformed line in the middle of a history does not
change the duplicate answer. -/
theorem duplicate_check_fails_open_witness :
    ExecutionGuard.is_duplicate_execution (.content ([] ++ "not a record" :: ["x:1.0"])) "x" 3 =
      ExecutionGuard.is_duplicate_execution (.content ([] ++ ["x:1.0"])) "x" 3 :=
  duplicate_check_fails_open.2.2 "x" 3 [] ["x:1.0"] "not a record" (by decide)

/-- C9 counterexample: the triples `("a", "b:c", "")` and `("a", "b", "c:")`
differ in two components yet hash the very same joined string, so their
fingerprints are identical — and not because of a SHA-256 collision. -/
theorem identity_separation_counterexample :
    executionContent "a" "b:c" "" = executionContent "a" "b" "c:" ∧
    ExecutionContext.generate_execution_id "a" "b:c" "" =
      ExecutionContext.generate_execution_id "a" "b" "c:" ∧
    (("a", "b:c", "") : String × String × String) ≠ ("a", "b", "c:") := by
  have h : executionContent "a" "b:c" "" = executionContent "a" "b" "c:" := by decide
  refine ⟨h, ?_, by decide⟩
  rw [ExecutionContext.generate_execution_id, ExecutionContext.generate_execution_id, h]

/-- C9 amended: the fingerprint is the truncated SHA-256 of the joined string
`session:event:tool`, so inputs whose joined strings coincide collide
regardless of the hash; but whenever no component contains the separator
`':'`, distinct triples always produce distinct hash inputs — hence distinct
fingerprints barring SHA-256 collisions. -/
theorem identity_separation_amended :
    ∀ s1 e1 t1 s2 e2 t2 : String,
      ':' ∉ s1.data → ':' ∉ e1.data → ':' ∉ t1.data →
      ':' ∉ s2.data → ':' ∉ e2.data → ':' ∉ t2.data →
      executionContent s1 e1 t1 = executionContent s2 e2 t2 →
      s1 = s2 ∧ e1 = e2 ∧ t1 = t2 := by
  intro s1 e1 t1 s2 e2 t2 hs1 he1 ht1 hs2 he2 ht2 h
  have hcolon : (":" : String).data = [':'] := rfl
  have hd : s1.data ++ ':' :: (e1.data ++ ':' :: t1.data) =
      s2.data ++ ':' :: (e2.data ++ ':' :: t2.data) := by
    have hdata := congrArg String.data h
    simpa [executionContent, String.data_append, hcolon] using hdata
  obtain ⟨h1, h2⟩ := append_colon_inj hs1 hs2 hd
  obtain ⟨h3, h4⟩ := append_colon_inj he1 he2 h2
  exact ⟨String.ext h1, String.ext h3, String.ext h4⟩

/-- Witness for C9 amended at concrete colon-free inputs. -/
theorem identity_separation_amended_witness :
    ("sess" : String) = "sess" ∧ ("PreToolUse" : String) = "PreToolUse" ∧
      ("Bash" : String) = "Bash" :=
  identity_separation_amended "sess" "PreToolUse" "Bash" "sess" "PreToolUse" "Bash"
    (by decide) (by decide) (by decide) (by decide) (by decide) (by decide) rfl

/-- C4: guard acquisition fails closed — whenever the non-blocking exclusive
lock is already held or a filesystem error occurs during acquisition, the
guard answers `granted = false`; and every run whose guard is denied
(duplicate detected, lock unavailable, or filesystem error) records no
history, appends no log entry, dispatches nothing, and exits with code 0. -/
theorem guard_fails_closed :
    (∀ (store : HistoryStore) (fsError : Bool) (tbl : LockTable) (ctx : ExecutionContext),
      (fsError = true ∨ (tbl.lookup (ExecutionGuard.lock_file_path ctx)).isSome = true) →
      (ExecutionGuard.enter store fsError tbl ctx).1 = false) ∧
    (∀ (store : HistoryStore) (fsError : Bool) (tbl : LockTable) (j : JsonData)
        (now : ℚ) (pid : Nat),
      (ExecutionGuard.enter store fsError tbl (ExecutionContext.ofJson j now pid)).1 = false →
      HookCoordinator.process store fsError tbl j now pid =
        { historyAppends := [], logAppends := 0, dispatch := ⟨[], [], []⟩, exitCode := 0 }) := by
  constructor
  · intro store fsError tbl ctx h
    rcases h with h | h
    · simp [ExecutionGuard.enter, h]
    · obtain ⟨v, hv⟩ := Option.isSome_iff_exists.mp h
      simp [ExecutionGuard.enter, flockTryExclusive, hv]
  · intro store fsError tbl j now pid h
    simp only [HookCoordinator.process]
    rw [h]
    rfl

/-- Witness for C4: with a filesystem error flagged, the guard denies and the
run is a benign skip. -/
theorem guard_fails_closed_witness :
    (ExecutionGuard.enter .absent true [] (ExecutionContext.ofJson {} 0 1)).1 = false ∧
      HookCoordinator.process .absent true [] {} 0 1 =
        { historyAppends := [], logAppends := 0, dispatch := ⟨[], [], []⟩, exitCode := 0 } := by
  have h1 := guard_fails_closed.1 .absent true [] (ExecutionContext.ofJson {} 0 1) (Or.inl rfl)
  exact ⟨h1, guard_fails_closed.2 .absent true [] {} 0 1 h1⟩

/-- C5: two processes that compute the same fingerprint and race to acquire
the guard — both reaching the atomic non-blocking lock attempt before either
releases, neither suppressed as a duplicate — observe exactly one
`granted = true` (the first at the lock) and one `granted = false`; the
losing process dispatches nothing and appends nothing to the log. -/
theorem guard_mutual_exclusion :
    ∀ (store : HistoryStore) (ctxA ctxB : ExecutionContext) (jB : JsonData),
      ctxA.execution_id = ctxB.execution_id →
      ExecutionGuard.is_duplicate_execution store ctxA.execution_id ctxA.timestamp = false →
      ExecutionGuard.is_duplicate_execution store ctxB.execution_id ctxB.timestamp = false →
      (ExecutionGuard.enter store false [] ctxA).1 = true ∧
      (ExecutionGuard.enter store false
          (ExecutionGuard.enter store false [] ctxA).2 ctxB).1 = false ∧
      runAfterGuard
          (ExecutionGuard.enter store false
            (ExecutionGuard.enter store false [] ctxA).2 ctxB).1 jB ctxB =
        { historyAppends := [], logAppends := 0, dispatch := ⟨[], [], []⟩, exitCode := 0 } := by
  intro store ctxA ctxB jB hid hdA hdB
  have hA : ExecutionGuard.enter store false [] ctxA =
      (true, [(ExecutionGuard.lock_file_path ctxA, ctxA.process_id)]) := by
    simp [ExecutionGuard.enter, hdA, flockTryExclusive]
  have hpath : ExecutionGuard.lock_file_path ctxB = ExecutionGuard.lock_file_path ctxA := by
    rw [ExecutionGuard.lock_file_path, ExecutionGuard.lock_file_path, hid]
  have hB : (ExecutionGuard.enter store false
      (ExecutionGuard.enter store false [] ctxA).2 ctxB).1 = false := by
    rw [hA]
    simp [ExecutionGuard.enter, hdB, flockTryExclusive, hpath, List.lookup]
  exact ⟨by rw [hA], hB, by rw [hB]; rfl⟩

/-- Witness for C5: two contexts over the same envelope with different
timestamps and process ids race; the first wins, the second is denied and
skips. -/
theorem guard_mutual_exclusion_witness :
    (ExecutionGuard.enter (.content []) false [] (ExecutionContext.ofJson {} 1 100)).1 = true ∧
      (ExecutionGuard.enter (.content []) false
          (ExecutionGuard.enter (.content []) false []
            (ExecutionContext.ofJson {} 1 100)).2 (ExecutionContext.ofJson {} 2 200)).1 = false ∧
      runAfterGuard
          (ExecutionGuard.enter (.content []) false
            (ExecutionGuard.enter (.content []) false []
              (ExecutionContext.ofJson {} 1 100)).2 (ExecutionContext.ofJson {} 2 200)).1 {}
          (ExecutionContext.ofJson {} 2 200) =
        { historyAppends := [], logAppends := 0, dispatch := ⟨[], [], []⟩, exitCode := 0 } :=
  guard_mutual_exclusion (.content []) (ExecutionContext.ofJson {} 1 100)
    (ExecutionContext.ofJson {} 2 200) {} rfl rfl rfl

/-- C6: dispatch is routed by event kind and tool name — `PostToolUse` with
tool `Write` invokes the shared file-operation handler's after-capability
exactly once; `Notification`, `Stop` and `SubagentStop` never consult the
handler registry; a tool-scoped event whose tool has no registered handler
invokes the no-op handler, which performs no observable action; an
unrecognized event kind produces no action at all. -/
theorem dispatch_routing :
    (∀ j : JsonData, j.hook_event_name = some "PostToolUse" → j.tool_name = some "Write" →
      (HookCoordinator.handle_hook_event j).invocations = [(.fileHandler, .after)] ∧
      ToolHandlerRegistry.get_handler ToolHandlerRegistry.default_handlers "Write" =
        .fileHandler) ∧
    (∀ j : JsonData,
      (j.hook_event_name = some "Notification" ∨ j.hook_event_name = some "Stop" ∨
        j.hook_event_name = some "SubagentStop") →
      (HookCoordinator.handle_hook_event j).registryLookups = []) ∧
    (∀ (j : JsonData) (t : String), j.tool_name = some t → t ≠ "" →
      ToolHandlerRegistry.default_handlers.lookup t = none →
      j.hook_event_name = some "PreToolUse" →
      (HookCoordinator.handle_hook_event j).invocations = [(.noOpHandler, .before)] ∧
      (HookCoordinator.handle_hook_event j).outputs = []) ∧
    (∀ (j : JsonData) (t : String), j.tool_name = some t → t ≠ "" →
      ToolHandlerRegistry.default_handlers.lookup t = none →
      j.hook_event_name = some "PostToolUse" →
      (HookCoordinator.handle_hook_event j).invocations = [(.noOpHandler, .after)] ∧
      (HookCoordinator.handle_hook_event j).outputs = []) ∧
    (∀ j : JsonData,
      j.hook_event_name ≠ some "PreToolUse" → j.hook_event_name ≠ some "PostToolUse" →
      j.hook_event_name ≠ some "Notification" → j.hook_event_name ≠ some "Stop" →
      j.hook_event_name ≠ some "SubagentStop" →
      HookCoordinator.handle_hook_event j = ⟨[], [], []⟩) := by
  have hw : ToolHandlerRegistry.get_handler ToolHandlerRegistry.default_handlers "Write" =
      .fileHandler := by decide
  refine ⟨?_, ?_, ?_, ?_, ?_⟩
  · intro j h1 h2
    have ht : truthy (some "Write") = true := by decide
    refine ⟨?_, hw⟩
    simp [HookCoordinator.handle_hook_event, h1, h2, ht, hw]
  · intro j h
    rcases h with h | h | h <;>
      simp [HookCoordinator.handle_hook_event, h]
  · intro j t h1 h2 h3 h4
    have ht : truthy (some t) = true := by simp [truthy, h2]
    have hh : ToolHandlerRegistry.get_handler ToolHandlerRegistry.default_handlers t =
        .noOpHandler := by rw [ToolHandlerRegistry.get_handler, h3]; rfl
    constructor <;>
      simp [HookCoordinator.handle_hook_event, h1, h4, ht, hh, runHandler]
  · intro j t h1 h2 h3 h4
    have ht : truthy (some t) = true := by simp [truthy, h2]
    have hh : ToolHandlerRegistry.get_handler ToolHandlerRegistry.default_handlers t =
        .noOpHandler := by rw [ToolHandlerRegistry.get_handler, h3]; rfl
    constructor <;>
      simp [HookCoordinator.handle_hook_event, h1, h4, ht, hh, runHandler]
  · intro j h1 h2 h3 h4 h5
    simp [HookCoordinator.handle_hook_event, h1, h2, h3, h4, h5]

/-- Witness for C6 at the concrete `PostToolUse`/`Write` envelope. -/
theorem dispatch_routing_witness :
    (HookCoordinator.handle_hook_event
        { hook_event_name := some "PostToolUse", tool_name := some "Write" }).invocations =
      [(.fileHandler, .after)] ∧
    ToolHandlerRegistry.get_handler ToolHandlerRegistry.default_handlers "Write" =
      .fileHandler :=
  dispatch_routing.1 { hook_event_name := some "PostToolUse", tool_name := some "Write" } rfl rfl

/-- C10: a `PreToolUse` or `PostToolUse` envelope whose tool name is empty or
absent dispatches to no handler at all — no registry lookup, no invocation,
not even the no-op fallback — and the run is not an error: when the guard
grants, it still records one history entry and appends one log entry, and
exits with code 0. -/
theorem tool_event_missing_name_no_dispatch :
    ∀ (store : HistoryStore) (fsError : Bool) (tbl : LockTable) (j : JsonData)
      (now : ℚ) (pid : Nat),
      (j.hook_event_name = some "PreToolUse" ∨ j.hook_event_name = some "PostToolUse") →
      (j.tool_name = none ∨ j.tool_name = some "") →
      (ExecutionGuard.enter store fsError tbl (ExecutionContext.ofJson j now pid)).1 = true →
      HookCoordinator.process store fsError tbl j now pid =
        { historyAppends := [((ExecutionContext.ofJson j now pid).execution_id, now)]
          logAppends := 1
          dispatch := ⟨[], [], []⟩
          exitCode := 0 } := by
  intro store fsError tbl j now pid hev htool hgrant
  have ht : truthy j.tool_name = false := by
    rcases htool with h | h <;> rw [h] <;> rfl
  have hdisp : HookCoordinator.handle_hook_event j = ⟨[], [], []⟩ := by
    rcases hev with h | h <;>
      simp [HookCoordinator.handle_hook_event, h, ht]
  simp only [HookCoordinator.process]
  rw [hgrant, runAfterGuard, if_pos rfl, hdisp]
  rfl

/-- Witness for C10: a granted `PreToolUse` run with no tool name records
history and logs, but dispatches nothing. -/
theorem tool_event_missing_name_no_dispatch_witness :
    HookCoordinator.process (.content []) false [] { hook_event_name := some "PreToolUse" } 0 7 =
      { historyAppends :=
          [((ExecutionContext.ofJson { hook_event_name := some "PreToolUse" } 0 7).execution_id, 0)]
        logAppends := 1
        dispatch := ⟨[], [], []⟩
        exitCode := 0 } :=
  tool_event_missing_name_no_dispatch (.content []) false [] { hook_event_name := some "PreToolUse" }
    0 7 (Or.inl rfl) (Or.inl rfl) rfl

/-- Inserting a fresh key appends the binding. -/
theorem dictInsert_not_mem {a : JsonObj} {k : String} {v : JsonValue}
    (h : k ∉ a.map Prod.fst) : dictInsert a k v = a ++ [(k, v)] := by
  induction a with
  | nil => rfl
  | cons p rest ih =>
    simp only [List.map_cons, List.mem_cons, not_or] at h
    rw [dictInsert, if_neg (fun he => h.1 he.symm), ih h.2]
    rfl

/-- Merging in one binding is one insertion followed by the rest. -/
theorem dictMerge_cons (a : JsonObj) (p : String × JsonValue) (ys : JsonObj) :
    dictMerge a (p :: ys) = dictMerge (dictInsert a p.1 p.2) ys := by
  rw [dictMerge, dictMerge, List.foldl_cons]

/-- Merging a concatenation merges the halves in turn. -/
theorem dictMerge_append (a xs ys : JsonObj) :
    dictMerge a (xs ++ ys) = dictMerge (dictMerge a xs) ys := by
  rw [dictMerge, dictMerge, dictMerge, List.foldl_append]

/-- Merging a uniquely-keyed object none of whose keys occur in the base
appends it verbatim. -/
theorem dictMerge_not_mem {b : JsonObj} :
    ∀ {a : JsonObj}, (∀ k ∈ b.map Prod.fst, k ∉ a.map Prod.fst) →
      (b.map Prod.fst).Nodup → dictMerge a b = a ++ b := by
  induction b with
  | nil => intro a _ _; simp [dictMerge]
  | cons p rest ih =>
    intro a hdis hnod
    simp only [List.map_cons, List.nodup_cons] at hnod
    rw [dictMerge_cons, dictInsert_not_mem (hdis p.1 (by simp)), ih ?_ hnod.2]
    · simp
    · intro k hk
      simp only [List.map_append, List.mem_append, List.map_cons, List.map_nil,
        List.mem_singleton, not_or]
      refine ⟨hdis k (by simp [hk]), fun he => hnod.1 (he ▸ hk)⟩

/-- C7 counterexample: an envelope that already carries a `"timestamp"` field
keeps its own value in the log entry — the rendered write time is
overwritten, so the appended record does not hold the rendered local time of
the write. -/
theorem log_entry_counterexample :
    HookLogger.log_entry "2025-01-02 03:04:05" [("timestamp", JsonValue.str "original")] =
      [("timestamp", JsonValue.str "original")] ∧
    JsonValue.str "original" ≠ JsonValue.str "2025-01-02 03:04:05" := by
  constructor
  · rw [HookLogger.log_entry, dictMerge_cons]
    rfl
  · intro h
    injection h with h
    exact absurd h (by decide)

/-- C7 amended: the appended record contains every original envelope field
with its original value; when the envelope has no `"timestamp"` field the
record additionally holds a `"timestamp"` field with the rendered local
write time, while an envelope's own `"timestamp"` value takes precedence
over the rendered time (moving to the front of the record); and the write is
a pure append — existing log entries are never mutated. -/
theorem log_entry_preserves_fields :
    ∀ (ts : String) (j : JsonObj) (log : List JsonObj),
      (j.map Prod.fst).Nodup →
      (("timestamp" ∉ j.map Prod.fst →
          HookLogger.log_entry ts j = ("timestamp", JsonValue.str ts) :: j) ∧
        (∀ (pre : JsonObj) (v : JsonValue) (post : JsonObj),
          j = pre ++ ("timestamp", v) :: post →
          HookLogger.log_entry ts j = ("timestamp", v) :: (pre ++ post)) ∧
        HookLogger.log_with_timestamp ts j log = log ++ [HookLogger.log_entry ts j]) := by
  intro ts j log hnod
  refine ⟨?_, ?_, rfl⟩
  · intro hfree
    rw [HookLogger.log_entry, dictMerge_not_mem ?_ hnod]
    · rfl
    · intro k hk
      simp only [List.map_cons, List.map_nil, List.mem_singleton]
      exact fun he => absurd (he ▸ hk) hfree
  · intro pre v post hj
    subst hj
    simp only [List.map_append, List.map_cons] at hnod
    have hsplit := List.nodup_append.mp hnod
    have hmid := List.nodup_cons.mp hsplit.2.1
    have hpre_ts : "timestamp" ∉ pre.map Prod.fst := fun hm =>
      hsplit.2.2 hm (List.mem_cons_self _ _)
    have hpost_ts : "timestamp" ∉ post.map Prod.fst := hmid.1
    have hpost_pre : ∀ k ∈ post.map Prod.fst, k ∉ pre.map Prod.fst := fun k hk hm =>
      hsplit.2.2 hm (List.mem_cons_of_mem _ hk)
    rw [HookLogger.log_entry, dictMerge_append, dictMerge_cons,
      dictMerge_not_mem ?_ hsplit.1]
    · have hins : dictInsert (("timestamp", JsonValue.str ts) :: pre) "timestamp" v =
          ("timestamp", v) :: pre := by
        rw [dictInsert, if_pos rfl]
      rw [show ([("timestamp", JsonValue.str ts)] ++ pre : JsonObj) =
          ("timestamp", JsonValue.str ts) :: pre from rfl, hins,
        dictMerge_not_mem ?_ hmid.2]
      · rfl
      · intro k hk
        simp only [List.map_cons, List.mem_cons, not_or]
        exact ⟨fun he => hpost_ts (he ▸ hk), hpost_pre k hk⟩
    · intro k hk
      simp only [List.map_cons, List.map_nil, List.mem_singleton]
      exact fun he => hpre_ts (he ▸ hk)

/-- Witness for C7 amended at a concrete envelope without its own timestamp
field. -/
theorem log_entry_preserves_fields_witness :
    HookLogger.log_entry "T" [("session_id", JsonValue.str "s")] =
      ("timestamp", JsonValue.str "T") :: [("session_id", JsonValue.str "s")] ∧
    HookLogger.log_with_timestamp "T" [("session_id", JsonValue.str "s")] [] =
      [] ++ [HookLogger.log_entry "T" [("session_id", JsonValue.str "s")]] := by
  have h := log_entry_preserves_fields "T" [("session_id", JsonValue.str "s")] []
    (by simp)
  exact ⟨h.1 (by simp), h.2.2⟩

/-- C8 counterexample: not every unhandled exception is converted to a fatal
report with exit code 2 — a `KeyboardInterrupt` is re-raised unchanged by
`main`, producing no fatal-error report and no exit-code-2 termination. -/
theorem fatal_error_counterexample :
    ¬ ∀ (e : PyExc) (ss : List String),
        ∃ lines, pymain (.raised e ss) = .exited lines 2 := by
  intro h
  obtain ⟨lines, hl⟩ := h .keyboardInterrupt []
  simp [pymain] at hl

/-- C8 amended: every unhandled exception other than `KeyboardInterrupt` and
`SystemExit` is caught at the top level, reported as a context-tagged FATAL
ERROR line on standard error, and terminates the process with exit code 2;
malformed input JSON is reported with the reader's context tag and exits
with code 2 through the `SystemExit` it raises; `KeyboardInterrupt` and
`SystemExit` are re-raised unchanged; and a denied guard is never an error —
the run completes normally with exit code 0. -/
theorem fatal_error_amended :
    (∀ (msg : String) (ss : List String),
      pymain (.raised (.otherExc msg) ss) = .exited (ss ++ [fatalLine "main" msg]) 2) ∧
    (∀ msg : String,
      JsonInputReader.read_json_input (.error msg) =
        .error (.systemExit 2, [fatalLine "JsonInputReader.read_json_input" msg]) ∧
      pymain (.raised (.systemExit 2) [fatalLine "JsonInputReader.read_json_input" msg]) =
        .exited [fatalLine "JsonInputReader.read_json_input" msg] 2) ∧
    (∀ ss, pymain (.raised .keyboardInterrupt ss) = .interrupted ss) ∧
    (∀ (c : Nat) (ss : List String), pymain (.raised (.systemExit c) ss) = .exited ss c) ∧
    (∀ (store : HistoryStore) (fsError : Bool) (tbl : LockTable) (j : JsonData)
        (now : ℚ) (pid : Nat),
      (ExecutionGuard.enter store fsError tbl (ExecutionContext.ofJson j now pid)).1 = false →
      (HookCoordinator.process store fsError tbl j now pid).exitCode = 0 ∧
      pymain .normal = .exited [] 0) := by
  refine ⟨fun _ _ => rfl, fun _ => ⟨rfl, rfl⟩, fun _ => rfl, fun _ _ => rfl, ?_⟩
  intro store fsError tbl j now pid h
  refine ⟨?_, rfl⟩
  simp only [HookCoordinator.process]
  rw [h]
  rfl

/-- Witness for C8 amended: a run denied by a filesystem error during
acquisition still exits with code 0. -/
theorem fatal_error_amended_witness :
    (HookCoordinator.process .unreadable true [] {} 0 1).exitCode = 0 ∧
      pymain .normal = .exited [] 0 :=
  fatal_error_amended.2.2.2.2 .unreadable true [] {} 0 1 rfl
